import Mathlib

/-!
Verification of the level parser of the `paku` repository
(`src/paku/src/pacman.rs`, `Game::try_from_file`).

The parser is shallowly embedded below.  The input is the character grid
obtained from the level file (the file read itself and the `lines()` split —
which can only produce the `FileRead` error — are outside the model; every
claim under scrutiny quantifies over grids).  All loops of the source are
structural recursions or folds over the explicit candidate lists that the
Rust `for` loops range over, in identical order, and the mutable `consumed`
overlay is represented by the decidable predicates that describe its exact
contents at each pipeline stage (the ghost stage claims exactly the accepted
8x5 block, the pac stage additionally the accepted `$$` pair, the warp stage
additionally every digit cell).

One divergence, documented here once: the Rust code indexes `rows[y][x]`
and panics when an index is out of range, which can only happen during the
8x5 window check on grids narrower than 8 or shorter than 5 whose in-range
prefix is entirely `'@'`.  The embedding's `cell` accessor returns `' '`
out of range, so such a window simply fails to match.  No theorem below is
instantiated on such a grid.
-/

/-- The error enum of `pacman.rs`.  `FileRead` is listed for completeness but
never produced by the embedded parser (file input is outside the model).
The binary crate `main.rs` declares a second, unused copy of this enum with
one extra variant (`InvalidGhostSpawnPeripheral`); that variant does not
exist in the parser's own enum and is never produced. -/

inductive PacError where
  | FileRead
  | LevelEmpty
  | LevelNotRectangular
  | NoPacSpawn
  | MultiplePacSpawns
  | InvalidPacSpawn
  | NoGhostSpawn
  | MultipleGhostSpawns
  | InvalidGhostSpawn
  | InvalidWarp
  | InvalidCharacters
  | ConversionToArray
deriving Repr, DecidableEq

/-- The result record of a successful parse, with exactly the fields of the
Rust `Game` struct.  The board is the `Array2<i32>` in row-major rows. -/

structure Game where
  pacman_loc : Nat × Nat
  blinky_loc : Nat × Nat
  pinky_loc : Nat × Nat
  inky_loc : Nat × Nat
  clyde_loc : Nat × Nat
  ghost_spawn : Nat × Nat
  board : List (List Int)
deriving Repr, DecidableEq

/-- A level grid: the rows of characters produced by `lines()`. -/

abbrev Grid := List (List Char)

abbrev Coord := Nat × Nat

/-- `rows[y][x]`; returns `' '` out of range (the Rust code would panic,
see the header comment). -/

def cell (rows : Grid) (x y : Nat) : Char :=
  (rows.getD y []).getD x ' '

/-- All `(x, y)` cells in the order the Rust double loops visit them:
`y` outer from `0` to `h-1`, `x` inner from `0` to `w-1`. -/

def rowMajor (w h : Nat) : List Coord :=
  (List.range h).flatMap fun y => (List.range w).map fun x => (x, y)

/-- Lines 72-94: empty / zero-width / non-rectangular checks; returns
`(width, height)`.  The Rust loop returns `LevelNotRectangular` at the first
offending row; since every offending row yields the same error, `any` is an
exact translation. -/

def gridCheck (rows : Grid) : Except PacError (Nat × Nat) :=
  if rows.isEmpty then .error .LevelEmpty
  else
    let w := (rows.headD []).length
    if w = 0 then .error .LevelEmpty
    else if rows.any fun r => r.length ≠ w then .error .LevelNotRectangular
    else .ok (w, rows.length)

/-- Lines 106-117: all 40 cells of the 8x5 window at top-left `(x, y)`
equal `'@'` (the Rust inner loops break early; the conjunction is the same
value). -/

def windowAllAt (rows : Grid) (x y : Nat) : Bool :=
  (List.range 5).all fun yy => (List.range 8).all fun xx =>
    cell rows (x + xx) (y + yy) = '@'

/-- Lines 103-104: candidate top-left positions
`0 ≤ y ≤ height.saturating_sub(5)`, `0 ≤ x ≤ width.saturating_sub(8)`,
row-major (`y` outer).  Nat subtraction is saturating. -/

def ghostCandidates (w h : Nat) : List Coord :=
  (List.range (h - 5 + 1)).flatMap fun y =>
    (List.range (w - 8 + 1)).map fun x => (x, y)

/-- Lines 103-143: the ghost-block scan loop.  `acc` is the mutable
`ghost_top_left`; a second window match returns `MultipleGhostSpawns`
immediately (the code does not ask whether the two matches overlap), and an
empty final `acc` is `NoGhostSpawn`. -/

def ghostScanGo (rows : Grid) : List Coord → Option Coord → Except PacError Coord
  | [], none => .error .NoGhostSpawn
  | [], some tl => .ok tl
  | c :: cs, acc =>
    if windowAllAt rows c.1 c.2 then
      match acc with
      | some _ => .error .MultipleGhostSpawns
      | none => ghostScanGo rows cs (some c)
    else ghostScanGo rows cs acc

/-- Stage 1 of the parse (lines 99-144): find the single 8x5 `'@'` block. -/

def ghostStage (rows : Grid) (w h : Nat) : Except PacError Coord :=
  ghostScanGo rows (ghostCandidates w h) none

/-- Membership in the 8x5 block with top-left `tl`: exactly the cells the
ghost stage marks `consumed` (lines 126-130). -/

def inGhostBlock (tl : Coord) (x y : Nat) : Bool :=
  decide (tl.1 ≤ x) && decide (x < tl.1 + 8) && decide (tl.2 ≤ y) && decide (y < tl.2 + 5)

/-- The `consumed` overlay during the pac scan: the accepted ghost block
plus, once the pair at `pac` has been recorded (lines 159-160), its two
cells. -/

def consumed1 (tl : Coord) (pac : Option Coord) (x y : Nat) : Bool :=
  inGhostBlock tl x y ||
    match pac with
    | some p => decide (y = p.2) && (decide (x = p.1) || decide (x = p.1 + 1))
    | none => false

/-- Lines 150-151: pair candidates `(x, y)-(x+1, y)`, `y` outer over the
full height, `x` inner over `0..width.saturating_sub(1)` (exclusive). -/

def pacCandidates (w h : Nat) : List Coord :=
  (List.range h).flatMap fun y => (List.range (w - 1)).map fun x => (x, y)

/-- Line 152-153 for one candidate: both cells unclaimed, both `'$'`. -/

def pacPairAt (rows : Grid) (tl : Coord) (pac : Option Coord) (c : Coord) : Bool :=
  !consumed1 tl pac c.1 c.2 && !consumed1 tl pac (c.1 + 1) c.2 &&
    decide (cell rows c.1 c.2 = '$') && decide (cell rows (c.1 + 1) c.2 = '$')

/-- Lines 150-164: the pac-pair scan loop.  `acc` is the mutable
`pacman_loc`; the consumed overlay consulted by each candidate already
contains the recorded pair. -/

def pacScanGo (rows : Grid) (tl : Coord) :
    List Coord → Option Coord → Except PacError (Option Coord)
  | [], acc => .ok acc
  | c :: cs, acc =>
    if pacPairAt rows tl acc c then
      match acc with
      | some _ => .error .MultiplePacSpawns
      | none => pacScanGo rows tl cs (some c)
    else pacScanGo rows tl cs acc

/-- Stage 2 of the parse (lines 148-178): scan for the `$$` pair, then the
stray-`'$'` sweep (lines 166-176), then `NoPacSpawn` (line 178), in the
code's order. -/

def pacStage (rows : Grid) (w h : Nat) (tl : Coord) : Except PacError Coord :=
  match pacScanGo rows tl (pacCandidates w h) none with
  | .error e => .error e
  | .ok acc =>
    if (rowMajor w h).any (fun p =>
        decide (cell rows p.1 p.2 = '$') && !consumed1 tl acc p.1 p.2) then
      .error .InvalidPacSpawn
    else
      match acc with
      | none => .error .NoPacSpawn
      | some pac => .ok pac

/-- Lines 180-196: the warp sweep collects the digit value of every cell
that is not consumed (and marks it consumed as it goes; a digit cell can
never already be consumed, since consumed cells hold `'@'` or `'$'`, but
the guard is kept).  The list is in row-major visit order. -/

def warpIds (rows : Grid) (w h : Nat) (tl : Coord) (pac : Coord) : List Nat :=
  (rowMajor w h).filterMap fun p =>
    if consumed1 tl (some pac) p.1 p.2 then none
    else if (cell rows p.1 p.2).isDigit then some ((cell rows p.1 p.2).toNat - 48)
    else none

/-- The entries of the Rust `HashMap<u8, usize>` `warp_counts` in one
definite order (distinct ids, each with its multiplicity).  The map's real
iteration order is arbitrary; the parser is parameterized by a reordering
of this list, see `tryFromGridWith`. -/

def canonEntries (ids : List Nat) : List (Nat × Nat) :=
  ids.dedup.map fun d => (d, ids.count d)

/-- Lines 208-235 applied to the already-sorted id vector: the start-at-1
check (line 211), the contiguity check (lines 218-227: position `i` must
hold `i+1`), and the at-most-9 check (line 228). -/

def warpCheckSorted (ids : List Nat) : Except PacError Unit :=
  if ids.headD 0 ≠ 1 then .error .InvalidWarp
  else if (List.range ids.length).any (fun i => ids.getD i 0 ≠ i + 1) then
    .error .InvalidWarp
  else if ids.length > 9 then .error .InvalidWarp
  else .ok ()

/-- Lines 197-235: the warp-count validation, operating on the hash-map
entries in the order given.  Count check (lines 199-207), then the keys are
sorted ascending and checked. -/

def warpCheck (entries : List (Nat × Nat)) : Except PacError Unit :=
  if entries.isEmpty then .ok ()
  else if entries.any (fun e => e.2 ≠ 2) then .error .InvalidWarp
  else warpCheckSorted (List.insertionSort (fun a b => a ≤ b) (entries.map Prod.fst))

/-- Stage 3 of the parse (lines 180-235), parameterized by the hash-map
iteration order `f` (any reordering of the entry list). -/

def warpStage (rows : Grid) (w h : Nat) (tl : Coord) (pac : Coord)
    (f : List (Nat × Nat) → List (Nat × Nat)) : Except PacError Unit :=
  warpCheck (f (canonEntries (warpIds rows w h tl pac)))

/-- The consumed overlay after the warp sweep: block, pair, and every digit
cell the sweep visited (line 193; an already-consumed digit cell cannot
exist, so this is every digit cell). -/

def consumed2 (rows : Grid) (tl : Coord) (pac : Coord) (x y : Nat) : Bool :=
  consumed1 tl (some pac) x y || (cell rows x y).isDigit

/-- Stage 4 of the parse (lines 237-248): any `'@'` outside the consumed
overlay is a stray and fails with `InvalidGhostSpawn`.  Note this runs
after the pac and warp stages. -/

def strayStage (rows : Grid) (w h : Nat) (tl : Coord) (pac : Coord) :
    Except PacError Unit :=
  if (rowMajor w h).any (fun p =>
      decide (cell rows p.1 p.2 = '@') && !consumed2 rows tl pac p.1 p.2) then
    .error .InvalidGhostSpawn
  else .ok ()

/-- Effectful map with the early-return behaviour of the Rust encode loop:
the first error aborts. -/

def mapE (f : α → Except PacError β) : List α → Except PacError (List β)
  | [] => .ok []
  | a :: l =>
    match f a with
    | .error e => .error e
    | .ok b =>
      match mapE f l with
      | .error e => .error e
      | .ok bs => .ok (b :: bs)

/-- Lines 258-280: one cell's code.  `' '` is 0, `'#'` 1, `'-'` 2, `'!'` 3,
`'$'` 0, `'@'` 0, an ASCII digit `d` is `-d` (the Rust arm is `'0'..='9'`),
anything else is `InvalidCharacters`. -/

def encodeCell (c : Char) : Except PacError Int :=
  if c = ' ' then .ok 0
  else if c = '#' then .ok 1
  else if c = '-' then .ok 2
  else if c = '!' then .ok 3
  else if c = '$' then .ok 0
  else if c = '@' then .ok 0
  else if c.isDigit then .ok (-((c.toNat - 48 : Nat) : Int))
  else .error .InvalidCharacters

/-- Stage 5 (lines 252-283): the flat row-major vector of cell codes. -/

def encodeStage (rows : Grid) (w h : Nat) : Except PacError (List Int) :=
  mapE (fun p => encodeCell (cell rows p.1 p.2)) (rowMajor w h)

/-- Lines 285-286: `Array2::from_shape_vec((height, width), flat)` —
row `y` of the board is `flat[y*w .. y*w+w]`; a length mismatch is the
(unreachable) `ConversionToArray` error. -/

def toBoard (h w : Nat) (flat : List Int) : Except PacError (List (List Int)) :=
  if flat.length = h * w then
    .ok ((List.range h).map fun y => (flat.drop (y * w)).take w)
  else .error .ConversionToArray

/-- `Game::try_from_file` (lines 68-301) on a grid, parameterized by the
`warp_counts` hash-map iteration order `f`.  `ghost_spawn` is the block
center `top_left + (3, 2)` (line 146) and all four ghosts are placed there
(lines 288-298); `pacman_loc` is the recorded left cell of the pair. -/

def tryFromGridWith (f : List (Nat × Nat) → List (Nat × Nat)) (rows : Grid) :
    Except PacError Game :=
  match gridCheck rows with
  | .error e => .error e
  | .ok (w, h) =>
    match ghostStage rows w h with
    | .error e => .error e
    | .ok tl =>
      match pacStage rows w h tl with
      | .error e => .error e
      | .ok pac =>
        match warpStage rows w h tl pac f with
        | .error e => .error e
        | .ok _ =>
          match strayStage rows w h tl pac with
          | .error e => .error e
          | .ok _ =>
            match encodeStage rows w h with
            | .error e => .error e
            | .ok flat =>
              match toBoard h w flat with
              | .error e => .error e
              | .ok board =>
                .ok { pacman_loc := pac
                      blinky_loc := (tl.1 + 3, tl.2 + 2)
                      pinky_loc := (tl.1 + 3, tl.2 + 2)
                      inky_loc := (tl.1 + 3, tl.2 + 2)
                      clyde_loc := (tl.1 + 3, tl.2 + 2)
                      ghost_spawn := (tl.1 + 3, tl.2 + 2)
                      board := board }

/-- The parser with the canonical entry order (the choice is immaterial:
see the determinism theorem for claim C10). -/

def try_from_file (rows : Grid) : Except PacError Game :=
  tryFromGridWith id rows

/-- Element of the board at `(x, y)` (row `y`, column `x`). -/

def boardVal (b : List (List Int)) (x y : Nat) : Int :=
  (b.getD y []).getD x 0

/-- The 12x9 fixture of spec section 8. -/

def fixtureGrid : Grid :=
  [ "############",
    "#          #",
    "#@@@@@@@@  #",
    "#@@@@@@@@  #",
    "#@@@@@@@@  #",
    "#@@@@@@@@  #",
    "#@@@@@@@@  #",
    "#      $$  #",
    "############" ].map String.toList

def wallRow : List Int := [1, 1, 1, 1, 1, 1, 1, 1, 1, 1, 1, 1]

def midRow : List Int := [1, 0, 0, 0, 0, 0, 0, 0, 0, 0, 0, 1]

/-- What the parser actually returns on the fixture: all entity positions
are integral, the four ghosts coincide at the block center `(4, 4)`, and
the `'@'` cells encode to `0`. -/

def fixtureGame : Game :=
  { pacman_loc := (7, 7)
    blinky_loc := (4, 4)
    pinky_loc := (4, 4)
    inky_loc := (4, 4)
    clyde_loc := (4, 4)
    ghost_spawn := (4, 4)
    board := [wallRow, midRow, midRow, midRow, midRow, midRow, midRow, midRow, wallRow] }

/-- Decidable equality of parse results, for concrete evaluation. -/

instance {α : Type} [DecidableEq α] : DecidableEq (Except PacError α) := fun a b =>
  match a, b with
  | .ok x, .ok y => if h : x = y then .isTrue (by rw [h]) else .isFalse (by intro hc; cases hc; exact h rfl)
  | .error x, .error y => if h : x = y then .isTrue (by rw [h]) else .isFalse (by intro hc; cases hc; exact h rfl)
  | .ok _, .error _ => .isFalse (by intro hc; cases hc)
  | .error _, .ok _ => .isFalse (by intro hc; cases hc)

/-! ### Pipeline plumbing: building and inverting a parse -/

/-- The `Game` record the final lines 292-300 construct. -/

def mkGame (tl pac : Coord) (board : List (List Int)) : Game :=
  { pacman_loc := pac
    blinky_loc := (tl.1 + 3, tl.2 + 2)
    pinky_loc := (tl.1 + 3, tl.2 + 2)
    inky_loc := (tl.1 + 3, tl.2 + 2)
    clyde_loc := (tl.1 + 3, tl.2 + 2)
    ghost_spawn := (tl.1 + 3, tl.2 + 2)
    board := board }

/-! ### The ghost-block scan as a function of the match list -/

/-- Spec-side reading of section 4.2's scan outcome: the result is determined
by the list of matching windows in scan order — none: `NoGhostSpawn`; exactly
one: its top-left; two or more (overlapping or not): `MultipleGhostSpawns`. -/

def ghostSpec (rows : Grid) (w h : Nat) : Except PacError Coord :=
  match (ghostCandidates w h).filter (fun c => windowAllAt rows c.1 c.2) with
  | [] => .error .NoGhostSpawn
  | [c] => .ok c
  | _ :: _ :: _ => .error .MultipleGhostSpawns

/-! ### The pac-pair scan as a function of the first match -/

/-- Section 4.3 read as a specification: the first matching unclaimed pair
(if any) is recorded; a later candidate matching against the updated overlay
is `MultiplePacSpawns`; then the stray sweep; then `NoPacSpawn`. -/

def pacSpec (rows : Grid) (w h : Nat) (tl : Coord) : Except PacError Coord :=
  match (pacCandidates w h).find? (fun c => pacPairAt rows tl none c) with
  | none =>
    if (rowMajor w h).any (fun p =>
        decide (cell rows p.1 p.2 = '$') && !consumed1 tl none p.1 p.2) then
      .error .InvalidPacSpawn
    else .error .NoPacSpawn
  | some c =>
    if (((pacCandidates w h).dropWhile (fun d => !pacPairAt rows tl none d)).tail).any
        (fun d => pacPairAt rows tl (some c) d) then
      .error .MultiplePacSpawns
    else if (rowMajor w h).any (fun p =>
        decide (cell rows p.1 p.2 = '$') && !consumed1 tl (some c) p.1 p.2) then
      .error .InvalidPacSpawn
    else .ok c

/-! ### The cell encoder -/

/-- The spec's section 4.5 code table, amended at the single point the code
differs: the ghost marker is encoded as `0` (an empty tile), not `1`.
Characters outside the table get the junk value 99 (they can never survive
to a successful parse). -/

def specCode (c : Char) : Int :=
  if c = ' ' then 0
  else if c = '#' then 1
  else if c = '-' then 2
  else if c = '!' then 3
  else if c = '$' then 0
  else if c = '@' then 0
  else if c.isDigit then -((c.toNat - 48 : Nat) : Int)
  else 99

/-- The characters the encoder accepts. -/

def validChar (c : Char) : Bool :=
  c = ' ' || c = '#' || c = '-' || c = '!' || c = '$' || c = '@' || c.isDigit

/-- The digit character for value `d` (`'1'` is `digitChar 1`, etc.). -/

def digitChar (d : Nat) : Char := Char.ofNat (48 + d)

/-! ### Concrete grids -/

/-- The digit values present anywhere in a grid (used to state the warp
hypothesis of a grid without reference to the spawn anchors). -/

def gridDigits (rows : Grid) : List Nat :=
  (rows.flatten.filter Char.isDigit).map fun c => c.toNat - 48

/-- The fixture with an unrecognized character `'x'` at `(1, 1)`. -/

def gridInvalidChar : Grid :=
  [ "############",
    "#x         #",
    "#@@@@@@@@  #",
    "#@@@@@@@@  #",
    "#@@@@@@@@  #",
    "#@@@@@@@@  #",
    "#@@@@@@@@  #",
    "#      $$  #",
    "############" ].map String.toList

/-- The fixture with two warp pairs: digit 1 at `(1,1)` and `(10,1)`,
digit 2 at `(2,1)` and `(9,1)`. -/

def fixtureWarp2 : Grid :=
  [ "############",
    "#12      21#",
    "#@@@@@@@@  #",
    "#@@@@@@@@  #",
    "#@@@@@@@@  #",
    "#@@@@@@@@  #",
    "#@@@@@@@@  #",
    "#      $$  #",
    "############" ].map String.toList

def warpRow : List Int := [1, -1, -2, 0, 0, 0, 0, 0, 0, -2, -1, 1]

def fixtureWarp2Game : Game :=
  { pacman_loc := (7, 7)
    blinky_loc := (4, 4)
    pinky_loc := (4, 4)
    inky_loc := (4, 4)
    clyde_loc := (4, 4)
    ghost_spawn := (4, 4)
    board := [wallRow, warpRow, midRow, midRow, midRow, midRow, midRow, midRow, wallRow] }

/-- A single row holding a well-formed warp pair and nothing else. -/

def gridDigitsOnly : Grid := [['1', '1']]

/-- A 9-wide, 5-tall solid block of ghost markers (mis-shaped per the spec:
not 8x5). -/

def gridWideBlock : Grid :=
  [ "           ",
    " @@@@@@@@@ ",
    " @@@@@@@@@ ",
    " @@@@@@@@@ ",
    " @@@@@@@@@ ",
    " @@@@@@@@@ ",
    "  $$       " ].map String.toList

/-- The fixture with a single stray ghost marker at `(10, 1)` and no other
defect. -/

def gridStrayAt : Grid :=
  [ "############",
    "#         @#",
    "#@@@@@@@@  #",
    "#@@@@@@@@  #",
    "#@@@@@@@@  #",
    "#@@@@@@@@  #",
    "#@@@@@@@@  #",
    "#      $$  #",
    "############" ].map String.toList

/-- The fixture with two simultaneous defects: a stray pac marker at `(2, 1)`
and a stray ghost marker at `(10, 1)`. -/

def gridTwoDefects : Grid :=
  [ "############",
    "# $       @#",
    "#@@@@@@@@  #",
    "#@@@@@@@@  #",
    "#@@@@@@@@  #",
    "#@@@@@@@@  #",
    "#@@@@@@@@  #",
    "#      $$  #",
    "############" ].map String.toList

/-- A level whose ghost block touches the top edge of the grid (no row above
exists) and whose two cells directly below the block's horizontal center,
`(4, 5)` and `(5, 5)`, are non-blank (`'$'`). -/

def gridEdgeBlock : Grid :=
  [ "#@@@@@@@@#",
    "#@@@@@@@@#",
    "#@@@@@@@@#",
    "#@@@@@@@@#",
    "#@@@@@@@@#",
    "#   $$   #" ].map String.toList

def edgeRow : List Int := [1, 0, 0, 0, 0, 0, 0, 0, 0, 1]

def gridEdgeBlockGame : Game :=
  { pacman_loc := (4, 5)
    blinky_loc := (4, 2)
    pinky_loc := (4, 2)
    inky_loc := (4, 2)
    clyde_loc := (4, 2)
    ghost_spawn := (4, 2)
    board := [edgeRow, edgeRow, edgeRow, edgeRow, edgeRow, edgeRow] }

/-! ### Definitions used by the claim statements -/

/-- The cells of a grid holding the digit character for `d`, in row-major
(first-seen, second-seen) order. -/

def digitCells (rows : Grid) (w h : Nat) (d : Nat) : List Coord :=
  (rowMajor w h).filter fun p => cell rows p.1 p.2 = digitChar d

/-- The cells of a board holding the value `v`, in row-major order. -/

def boardCells (b : List (List Int)) (w h : Nat) (v : Int) : List Coord :=
  (rowMajor w h).filter fun p => boardVal b p.1 p.2 = v

/-- Whether the parse of a grid succeeds. -/

def parseOk (rows : Grid) : Bool :=
  match try_from_file rows with
  | .ok _ => true
  | .error _ => false

example : try_from_file fixtureGrid = .ok fixtureGame := by decide

/-! ### Generic lemmas about `mapE` -/

theorem mapE_ok_length {f : α → Except PacError β} :
    ∀ {l : List α} {l' : List β}, mapE f l = .ok l' → l'.length = l.length := by
  intro l
  induction l with
  | nil => intro l' h; cases h; rfl
  | cons a t ih =>
    intro l' h
    unfold mapE at h
    cases hfa : f a with
    | error e => rw [hfa] at h; cases h
    | ok b =>
      rw [hfa] at h
      cases hmt : mapE f t with
      | error e => rw [hmt] at h; cases h
      | ok bs => rw [hmt] at h; cases h; simp [ih hmt]

theorem mapE_ok_get {f : α → Except PacError β} :
    ∀ {l : List α} {l' : List β}, mapE f l = .ok l' →
      ∀ (i : Nat) (a : α), l[i]? = some a → ∃ b, f a = .ok b ∧ l'[i]? = some b := by
  intro l
  induction l with
  | nil => intro l' _ i a ha; simp at ha
  | cons x t ih =>
    intro l' h i a ha
    unfold mapE at h
    cases hfa : f x with
    | error e => rw [hfa] at h; cases h
    | ok b =>
      rw [hfa] at h
      cases hmt : mapE f t with
      | error e => rw [hmt] at h; cases h
      | ok bs =>
        rw [hmt] at h; cases h
        cases i with
        | zero => simp at ha; subst ha; exact ⟨b, hfa, by simp⟩
        | succ j => simp only [List.getElem?_cons_succ] at ha ⊢; exact ih hmt j a ha

theorem mapE_ok_of_forall {f : α → Except PacError β} :
    ∀ {l : List α}, (∀ a ∈ l, ∃ b, f a = .ok b) → ∃ l', mapE f l = .ok l' := by
  intro l
  induction l with
  | nil => intro _; exact ⟨[], rfl⟩
  | cons x t ih =>
    intro hall
    obtain ⟨b, hb⟩ := hall x (by simp)
    obtain ⟨bs, hbs⟩ := ih fun a ha => hall a (by simp [ha])
    exact ⟨b :: bs, by unfold mapE; rw [hb, hbs]⟩

theorem mapE_error_mem {f : α → Except PacError β} :
    ∀ {l : List α} {e : PacError}, mapE f l = .error e → ∃ a ∈ l, f a = .error e := by
  intro l
  induction l with
  | nil => intro e h; cases h
  | cons x t ih =>
    intro e h
    unfold mapE at h
    cases hfa : f x with
    | error e0 => rw [hfa] at h; cases h; exact ⟨x, by simp, hfa⟩
    | ok b =>
      rw [hfa] at h
      cases hmt : mapE f t with
      | error e0 =>
        rw [hmt] at h; cases h
        obtain ⟨a, ha, hfe⟩ := ih hmt
        exact ⟨a, by simp [ha], hfe⟩
      | ok bs => rw [hmt] at h; cases h

theorem mapE_isError_of_mem {f : α → Except PacError β} :
    ∀ {l : List α} {a : α} {e : PacError}, a ∈ l → f a = .error e →
      ∃ e', mapE f l = .error e' := by
  intro l
  induction l with
  | nil => intro a e ha _; simp at ha
  | cons x t ih =>
    intro a e ha hfe
    unfold mapE
    cases hfa : f x with
    | error e0 => exact ⟨e0, rfl⟩
    | ok b =>
      rcases List.mem_cons.mp ha with h | h
      · subst h; rw [hfa] at hfe; cases hfe
      · obtain ⟨e', he'⟩ := ih h hfe
        rw [he']
        exact ⟨e', rfl⟩

/-! ### The row-major cell enumeration -/

theorem rowMajor_succ (w h : Nat) :
    rowMajor w (h + 1) = rowMajor w h ++ (List.range w).map (fun x => (x, h)) := by
  unfold rowMajor
  rw [List.range_succ, List.flatMap_append]
  simp

theorem rowMajor_length (w h : Nat) : (rowMajor w h).length = h * w := by
  induction h with
  | zero => simp [rowMajor]
  | succ n ih =>
    rw [rowMajor_succ, List.length_append, ih, List.length_map, List.length_range]
    ring

theorem rowMajor_get {w : Nat} : ∀ {h x y : Nat}, x < w → y < h →
    (rowMajor w h)[y * w + x]? = some (x, y) := by
  intro h
  induction h with
  | zero => intro x y _ hy; omega
  | succ n ih =>
    intro x y hx hy
    rw [rowMajor_succ]
    rcases Nat.lt_or_ge y n with hlt | hge
    · rw [List.getElem?_append_left (by
        rw [rowMajor_length]
        calc y * w + x < y * w + w := by omega
          _ = (y + 1) * w := by ring
          _ ≤ n * w := Nat.mul_le_mul_right w (by omega))]
      exact ih hx hlt
    · have hyn : y = n := by omega
      subst hyn
      rw [List.getElem?_append_right (by rw [rowMajor_length]; omega)]
      rw [rowMajor_length, Nat.add_sub_cancel_left, List.getElem?_map,
        List.getElem?_range hx]
      rfl

theorem mem_rowMajor {w h : Nat} {p : Coord} :
    p ∈ rowMajor w h ↔ p.1 < w ∧ p.2 < h := by
  unfold rowMajor
  rw [List.mem_flatMap]
  constructor
  · rintro ⟨y, hy, hp⟩
    rw [List.mem_map] at hp
    obtain ⟨x, hx, hxy⟩ := hp
    subst hxy
    exact ⟨List.mem_range.mp hx, List.mem_range.mp hy⟩
  · rintro ⟨h1, h2⟩
    exact ⟨p.2, List.mem_range.mpr h2, List.mem_map.mpr
      ⟨p.1, List.mem_range.mpr h1, by rfl⟩⟩

/-! ### The board reshape -/

theorem toBoard_ok {h w : Nat} {flat : List Int} (hlen : flat.length = h * w) :
    toBoard h w flat = .ok ((List.range h).map fun y => (flat.drop (y * w)).take w) := by
  unfold toBoard
  rw [if_pos hlen]

theorem boardVal_toBoard {h w x y : Nat} {flat : List Int} {b : List (List Int)}
    (hb : toBoard h w flat = .ok b) (hx : x < w) (hy : y < h) :
    boardVal b x y = flat.getD (y * w + x) 0 := by
  unfold toBoard at hb
  by_cases hlen : flat.length = h * w
  · rw [if_pos hlen] at hb
    cases hb
    have hrow : (((List.range h).map fun y => (flat.drop (y * w)).take w).getD y []) =
        (flat.drop (y * w)).take w := by
      rw [List.getD_eq_getElem?_getD, List.getElem?_map, List.getElem?_range hy]
      rfl
    unfold boardVal
    rw [hrow, List.getD_eq_getElem?_getD, List.getElem?_take_of_lt hx, List.getElem?_drop,
      List.getD_eq_getElem?_getD]
  · rw [if_neg hlen] at hb; cases hb

theorem parse_ok_build {f : List (Nat × Nat) → List (Nat × Nat)} {rows : Grid}
    {w h : Nat} {tl pac : Coord} {flat : List Int} {board : List (List Int)}
    (h1 : gridCheck rows = .ok (w, h))
    (h2 : ghostStage rows w h = .ok tl)
    (h3 : pacStage rows w h tl = .ok pac)
    (h4 : warpStage rows w h tl pac f = .ok ())
    (h5 : strayStage rows w h tl pac = .ok ())
    (h6 : encodeStage rows w h = .ok flat)
    (h7 : toBoard h w flat = .ok board) :
    tryFromGridWith f rows = .ok (mkGame tl pac board) := by
  unfold tryFromGridWith mkGame
  simp only [h1, h2, h3, h4, h5, h6, h7]

theorem parse_ok_inv {f : List (Nat × Nat) → List (Nat × Nat)} {rows : Grid} {g : Game}
    (hp : tryFromGridWith f rows = .ok g) :
    ∃ w h tl pac flat board,
      gridCheck rows = .ok (w, h) ∧
      ghostStage rows w h = .ok tl ∧
      pacStage rows w h tl = .ok pac ∧
      warpStage rows w h tl pac f = .ok () ∧
      strayStage rows w h tl pac = .ok () ∧
      encodeStage rows w h = .ok flat ∧
      toBoard h w flat = .ok board ∧
      g = mkGame tl pac board := by
  unfold tryFromGridWith at hp
  split at hp
  · cases hp
  next w h hg =>
    split at hp
    · cases hp
    next tl hts =>
      split at hp
      · cases hp
      next pac hpac =>
        split at hp
        · cases hp
        next u hw =>
          split at hp
          · cases hp
          next u' hs =>
            split at hp
            · cases hp
            next flat he =>
              split at hp
              · cases hp
              next board hb =>
                cases hp
                cases u; cases u'
                exact ⟨w, h, tl, pac, flat, board, hg, hts, hpac, hw, hs, he, hb, rfl⟩

theorem parse_error_pac {f : List (Nat × Nat) → List (Nat × Nat)} {rows : Grid}
    {w h : Nat} {tl : Coord} {e : PacError}
    (h1 : gridCheck rows = .ok (w, h))
    (h2 : ghostStage rows w h = .ok tl)
    (h3 : pacStage rows w h tl = .error e) :
    tryFromGridWith f rows = .error e := by
  unfold tryFromGridWith
  simp only [h1, h2, h3]

theorem parse_error_warp {f : List (Nat × Nat) → List (Nat × Nat)} {rows : Grid}
    {w h : Nat} {tl pac : Coord} {e : PacError}
    (h1 : gridCheck rows = .ok (w, h))
    (h2 : ghostStage rows w h = .ok tl)
    (h3 : pacStage rows w h tl = .ok pac)
    (h4 : warpStage rows w h tl pac f = .error e) :
    tryFromGridWith f rows = .error e := by
  unfold tryFromGridWith
  simp only [h1, h2, h3, h4]

theorem parse_error_stray {f : List (Nat × Nat) → List (Nat × Nat)} {rows : Grid}
    {w h : Nat} {tl pac : Coord} {e : PacError}
    (h1 : gridCheck rows = .ok (w, h))
    (h2 : ghostStage rows w h = .ok tl)
    (h3 : pacStage rows w h tl = .ok pac)
    (h4 : warpStage rows w h tl pac f = .ok ())
    (h5 : strayStage rows w h tl pac = .error e) :
    tryFromGridWith f rows = .error e := by
  unfold tryFromGridWith
  simp only [h1, h2, h3, h4, h5]

theorem parse_error_ghost {f : List (Nat × Nat) → List (Nat × Nat)} {rows : Grid}
    {w h : Nat} {e : PacError}
    (h1 : gridCheck rows = .ok (w, h))
    (h2 : ghostStage rows w h = .error e) :
    tryFromGridWith f rows = .error e := by
  unfold tryFromGridWith
  simp only [h1, h2]

theorem ghostScanGo_some (rows : Grid) :
    ∀ (cs : List Coord) (t : Coord),
      ghostScanGo rows cs (some t) =
        if cs.filter (fun c => windowAllAt rows c.1 c.2) = [] then .ok t
        else .error .MultipleGhostSpawns := by
  intro cs
  induction cs with
  | nil => intro t; simp [ghostScanGo]
  | cons c cs ih =>
    intro t
    unfold ghostScanGo
    by_cases hc : windowAllAt rows c.1 c.2
    · simp [hc, List.filter_cons]
    · have hfc : List.filter (fun c => windowAllAt rows c.1 c.2) (c :: cs) =
          List.filter (fun c => windowAllAt rows c.1 c.2) cs := by
        rw [List.filter_cons]
        simp [hc]
      rw [hfc]
      simp [hc, ih]

theorem ghostStage_eq_spec (rows : Grid) (w h : Nat) :
    ghostStage rows w h = ghostSpec rows w h := by
  unfold ghostStage ghostSpec
  generalize ghostCandidates w h = cs
  induction cs with
  | nil => simp [ghostScanGo]
  | cons c cs ih =>
    unfold ghostScanGo
    by_cases hc : windowAllAt rows c.1 c.2
    · rw [if_pos hc, ghostScanGo_some]
      simp only [List.filter_cons, hc, if_true]
      cases hf : cs.filter (fun c => windowAllAt rows c.1 c.2) with
      | nil => simp [hf]
      | cons d ds => simp [hf]
    · have hfc : List.filter (fun c => windowAllAt rows c.1 c.2) (c :: cs) =
          List.filter (fun c => windowAllAt rows c.1 c.2) cs := by
        rw [List.filter_cons]
        simp [hc]
      rw [hfc]
      simp [hc, ih]

theorem ghostStage_ok_iff {rows : Grid} {w h : Nat} {tl : Coord} :
    ghostStage rows w h = .ok tl ↔
      (ghostCandidates w h).filter (fun c => windowAllAt rows c.1 c.2) = [tl] := by
  rw [ghostStage_eq_spec]
  unfold ghostSpec
  cases hf : (ghostCandidates w h).filter (fun c => windowAllAt rows c.1 c.2) with
  | nil => simp
  | cons d ds =>
    cases ds with
    | nil => constructor <;> (intro h'; simp_all)
    | cons d' ds' => simp

/-- The accepted window really is a window: the scan only returns matches. -/

theorem ghostStage_ok_window {rows : Grid} {w h : Nat} {tl : Coord}
    (hts : ghostStage rows w h = .ok tl) : windowAllAt rows tl.1 tl.2 = true := by
  rw [ghostStage_ok_iff] at hts
  have : tl ∈ (ghostCandidates w h).filter (fun c => windowAllAt rows c.1 c.2) := by
    rw [hts]; simp
  exact (List.mem_filter.mp this).2

/-- Every cell of a matching 8x5 window holds `'@'`. -/

theorem window_cell {rows : Grid} {x y a b : Nat}
    (hw : windowAllAt rows x y = true)
    (h1 : x ≤ a) (h2 : a < x + 8) (h3 : y ≤ b) (h4 : b < y + 5) :
    cell rows a b = '@' := by
  unfold windowAllAt at hw
  rw [List.all_eq_true] at hw
  have hy := hw (b - y) (by rw [List.mem_range]; omega)
  rw [List.all_eq_true] at hy
  have hx := hy (a - x) (by rw [List.mem_range]; omega)
  have hxx : x + (a - x) = a := by omega
  have hyy : y + (b - y) = b := by omega
  rw [hxx, hyy] at hx
  exact of_decide_eq_true hx

/-- Cells of the accepted ghost block hold `'@'`, stated via `inGhostBlock`. -/

theorem ghostBlock_cell {rows : Grid} {w h : Nat} {tl : Coord} {x y : Nat}
    (hts : ghostStage rows w h = .ok tl)
    (hin : inGhostBlock tl x y = true) : cell rows x y = '@' := by
  unfold inGhostBlock at hin
  simp only [Bool.and_eq_true, decide_eq_true_eq] at hin
  exact window_cell (ghostStage_ok_window hts) hin.1.1.1 hin.1.1.2 hin.1.2 hin.2

theorem pacScanGo_some (rows : Grid) (tl : Coord) :
    ∀ (cs : List Coord) (t : Coord),
      pacScanGo rows tl cs (some t) =
        if cs.any (fun d => pacPairAt rows tl (some t) d) then
          .error .MultiplePacSpawns
        else .ok (some t) := by
  intro cs
  induction cs with
  | nil => intro t; simp [pacScanGo]
  | cons c cs ih =>
    intro t
    unfold pacScanGo
    by_cases hc : pacPairAt rows tl (some t) c
    · simp [hc]
    · have hb : pacPairAt rows tl (some t) c = false := by simpa using hc
      rw [if_neg hc, ih, List.any_cons, hb, Bool.false_or]

theorem pacScanGo_none (rows : Grid) (tl : Coord) :
    ∀ (cs : List Coord),
      pacScanGo rows tl cs none =
        match cs.find? (fun c => pacPairAt rows tl none c) with
        | none => .ok none
        | some c =>
          if ((cs.dropWhile (fun d => !pacPairAt rows tl none d)).tail).any
              (fun d => pacPairAt rows tl (some c) d) then
            .error .MultiplePacSpawns
          else .ok (some c) := by
  intro cs
  induction cs with
  | nil => simp [pacScanGo]
  | cons c cs ih =>
    unfold pacScanGo
    by_cases hc : pacPairAt rows tl none c
    · rw [if_pos hc, pacScanGo_some, List.find?_cons, hc, List.dropWhile_cons, hc]
      simp
    · have hb : pacPairAt rows tl none c = false := by simpa using hc
      rw [if_neg hc, ih, List.find?_cons, hb, List.dropWhile_cons, hb]
      simp

/-- The pac stage equals its first-match specification. -/

theorem pacStage_eq_spec (rows : Grid) (w h : Nat) (tl : Coord) :
    pacStage rows w h tl = pacSpec rows w h tl := by
  unfold pacStage pacSpec
  rw [pacScanGo_none]
  cases hf : (pacCandidates w h).find? (fun c => pacPairAt rows tl none c) with
  | none => rfl
  | some c =>
    by_cases hm : (((pacCandidates w h).dropWhile
        (fun d => !pacPairAt rows tl none d)).tail).any
        (fun d => pacPairAt rows tl (some c) d)
    · simp [hm]
    · simp [hm]

/-- A successful pac stage returned a matching pair: both its cells hold
`'$'` and lie outside the ghost block. -/

theorem pacStage_ok_pair {rows : Grid} {w h : Nat} {tl pac : Coord}
    (hp : pacStage rows w h tl = .ok pac) :
    cell rows pac.1 pac.2 = '$' ∧ cell rows (pac.1 + 1) pac.2 = '$' ∧
      inGhostBlock tl pac.1 pac.2 = false ∧ inGhostBlock tl (pac.1 + 1) pac.2 = false := by
  rw [pacStage_eq_spec] at hp
  unfold pacSpec at hp
  cases hf : (pacCandidates w h).find? (fun c => pacPairAt rows tl none c) with
  | none =>
    simp only [hf] at hp
    by_cases hs : ((rowMajor w h).any fun p =>
        decide (cell rows p.1 p.2 = '$') && !consumed1 tl none p.1 p.2)
    · rw [if_pos hs] at hp; cases hp
    · rw [if_neg hs] at hp; cases hp
  | some c =>
    simp only [hf] at hp
    have hcp : pacPairAt rows tl none c = true := List.find?_some hf
    by_cases hm : (((pacCandidates w h).dropWhile
        (fun d => !pacPairAt rows tl none d)).tail.any
        fun d => pacPairAt rows tl (some c) d)
    · rw [if_pos hm] at hp; cases hp
    · rw [if_neg hm] at hp
      by_cases hs : ((rowMajor w h).any fun p =>
          decide (cell rows p.1 p.2 = '$') && !consumed1 tl (some c) p.1 p.2)
      · rw [if_pos hs] at hp; cases hp
      · rw [if_neg hs] at hp
        cases hp
        simp only [pacPairAt, consumed1, Bool.and_eq_true, Bool.not_eq_true',
          Bool.or_false, decide_eq_true_eq] at hcp
        exact ⟨hcp.1.2, hcp.2, hcp.1.1.1, hcp.1.1.2⟩

theorem encodeCell_eq (c : Char) :
    encodeCell c = if validChar c then .ok (specCode c) else .error .InvalidCharacters := by
  unfold encodeCell validChar specCode
  by_cases h1 : c = ' ' <;> by_cases h2 : c = '#' <;> by_cases h3 : c = '-' <;>
    by_cases h4 : c = '!' <;> by_cases h5 : c = '$' <;> by_cases h6 : c = '@' <;>
    by_cases h7 : c.isDigit <;> simp [h1, h2, h3, h4, h5, h6, h7]

theorem encodeCell_ok_iff {c : Char} {v : Int} :
    encodeCell c = .ok v ↔ validChar c = true ∧ v = specCode c := by
  rw [encodeCell_eq]
  by_cases h : validChar c
  · rw [if_pos h]
    constructor
    · intro he; cases he; exact ⟨h, rfl⟩
    · rintro ⟨_, rfl⟩; rfl
  · rw [if_neg h]
    constructor
    · intro he; cases he
    · rintro ⟨hv, _⟩; exact absurd hv h

theorem encodeCell_error_iff {c : Char} {e : PacError} :
    encodeCell c = .error e ↔ validChar c = false ∧ e = .InvalidCharacters := by
  rw [encodeCell_eq]
  by_cases h : validChar c
  · rw [if_pos h]
    constructor
    · intro he; cases he
    · rintro ⟨hv, _⟩; rw [h] at hv; cases hv
  · rw [if_neg h]
    constructor
    · intro he; cases he; exact ⟨by simpa using h, rfl⟩
    · rintro ⟨_, rfl⟩; rfl

theorem isDigit_toNat {c : Char} (h : c.isDigit = true) :
    48 ≤ c.toNat ∧ c.toNat ≤ 57 := by
  simp [Char.isDigit] at h
  exact h

theorem toNat_digitChar {d : Nat} (hd : d ≤ 9) : (digitChar d).toNat = 48 + d := by
  interval_cases d <;> decide

theorem char_eq_digitChar {c : Char} {d : Nat} (h : c.isDigit = true)
    (hv : c.toNat - 48 = d) : c = digitChar d := by
  obtain ⟨h1, h2⟩ := isDigit_toNat h
  have hd9 : d ≤ 9 := by omega
  apply Char.ext
  apply UInt32.ext
  show c.toNat = (digitChar d).toNat
  rw [toNat_digitChar hd9]
  omega

theorem isDigit_digitChar {d : Nat} (hd : d ≤ 9) : (digitChar d).isDigit = true := by
  interval_cases d <;> decide

theorem specCode_digitChar {d : Nat} (h1 : 1 ≤ d) (h9 : d ≤ 9) :
    specCode (digitChar d) = -(d : Int) := by
  interval_cases d <;> decide

/-- Inverting a negative cell code: only the digit arm produces one. -/

theorem specCode_neg {c : Char} {d : Nat} (hval : validChar c = true)
    (h1 : 1 ≤ d) (hcode : specCode c = -(d : Int)) : c = digitChar d := by
  unfold specCode at hcode
  by_cases e1 : c = ' '
  · rw [if_pos e1] at hcode; omega
  rw [if_neg e1] at hcode
  by_cases e2 : c = '#'
  · rw [if_pos e2] at hcode; omega
  rw [if_neg e2] at hcode
  by_cases e3 : c = '-'
  · rw [if_pos e3] at hcode; omega
  rw [if_neg e3] at hcode
  by_cases e4 : c = '!'
  · rw [if_pos e4] at hcode; omega
  rw [if_neg e4] at hcode
  by_cases e5 : c = '$'
  · rw [if_pos e5] at hcode; omega
  rw [if_neg e5] at hcode
  by_cases e6 : c = '@'
  · rw [if_pos e6] at hcode; omega
  rw [if_neg e6] at hcode
  by_cases e7 : c.isDigit
  · rw [if_pos e7] at hcode
    refine char_eq_digitChar e7 ?_
    omega
  · rw [if_neg e7] at hcode
    unfold validChar at hval
    simp only [Bool.or_eq_true, decide_eq_true_eq] at hval
    rcases hval with ((((((v | v) | v) | v) | v) | v) | v) <;> first
      | (exact absurd v e1) | (exact absurd v e2) | (exact absurd v e3)
      | (exact absurd v e4) | (exact absurd v e5) | (exact absurd v e6)
      | (exact absurd v e7)

/-- The board value of a successful parse at an in-range cell is `specCode`
of the grid character there. -/

theorem parse_boardVal {f : List (Nat × Nat) → List (Nat × Nat)} {rows : Grid}
    {g : Game} {w h : Nat}
    (hg : gridCheck rows = .ok (w, h))
    (hp : tryFromGridWith f rows = .ok g) :
    ∀ x y, x < w → y < h →
      validChar (cell rows x y) = true ∧
      boardVal g.board x y = specCode (cell rows x y) := by
  intro x y hx hy
  obtain ⟨w', h', tl, pac, flat, board, hg', _, _, _, _, he, hb, hgame⟩ := parse_ok_inv hp
  have hpair : (w, h) = (w', h') := Except.ok.inj (hg.symm.trans hg')
  cases hpair
  have hcell := mapE_ok_get he (y * w + x) (x, y) (rowMajor_get hx hy)
  obtain ⟨v, hv, hflat⟩ := hcell
  rw [encodeCell_ok_iff] at hv
  subst hgame
  constructor
  · exact hv.1
  · show boardVal board x y = specCode (cell rows x y)
    rw [boardVal_toBoard hb hx hy, List.getD_eq_getElem?_getD, hflat]
    exact hv.2

/-! ### The warp validation -/

theorem perm_any {l₁ l₂ : List α} (hp : l₁.Perm l₂) (p : α → Bool) :
    l₁.any p = l₂.any p := by
  rw [Bool.eq_iff_iff, List.any_eq_true, List.any_eq_true]
  constructor
  · rintro ⟨x, hx, hpx⟩; exact ⟨x, hp.mem_iff.mp hx, hpx⟩
  · rintro ⟨x, hx, hpx⟩; exact ⟨x, hp.mem_iff.mpr hx, hpx⟩

theorem perm_isEmpty {l₁ l₂ : List α} (hp : l₁.Perm l₂) :
    l₁.isEmpty = l₂.isEmpty := by
  rw [Bool.eq_iff_iff, List.isEmpty_iff, List.isEmpty_iff]
  constructor
  · intro h; rw [h] at hp; exact hp.symm.eq_nil
  · intro h; rw [h] at hp; exact hp.eq_nil

/-- The warp validation is insensitive to the hash-map iteration order. -/

theorem warpCheck_perm {e₁ e₂ : List (Nat × Nat)} (hp : e₁.Perm e₂) :
    warpCheck e₁ = warpCheck e₂ := by
  unfold warpCheck
  have hsort : List.insertionSort (fun a b => a ≤ b) (e₁.map Prod.fst) =
      List.insertionSort (fun a b => a ≤ b) (e₂.map Prod.fst) := by
    exact @List.eq_of_perm_of_sorted ℕ (fun a b => a ≤ b) inferInstance _ _
      ((List.perm_insertionSort _ _).trans
        ((hp.map Prod.fst).trans (List.perm_insertionSort _ _).symm))
      (List.sorted_insertionSort _ _) (List.sorted_insertionSort _ _)
  rw [perm_isEmpty hp, perm_any hp, hsort]

theorem warpStage_perm (rows : Grid) (w h : Nat) (tl pac : Coord)
    {f : List (Nat × Nat) → List (Nat × Nat)} (hf : ∀ l, (f l).Perm l) :
    warpStage rows w h tl pac f = warpStage rows w h tl pac id := by
  unfold warpStage
  exact warpCheck_perm (hf _)

theorem warpCheckSorted_range' {k : Nat} (h1 : 1 ≤ k) (hk : k ≤ 9) :
    warpCheckSorted (List.range' 1 k) = .ok () := by
  have hhead : (List.range' 1 k).headD 0 = 1 := by
    cases k with
    | zero => omega
    | succ n => rw [List.range'_succ]; rfl
  have hlen : (List.range' 1 k).length = k := List.length_range' 1 1 k
  have hany : ((List.range (List.range' 1 k).length).any
      (fun i => (List.range' 1 k).getD i 0 ≠ i + 1)) = false := by
    rw [List.any_eq_false]
    intro i hi
    have hik : i < k := List.mem_range.mp (by rwa [hlen] at hi)
    rw [List.getD_eq_getElem?_getD, List.getElem?_range' 1 1 hik]
    simp
    omega
  have h9 : ¬ ((List.range' 1 k).length > 9) := by rw [hlen]; omega
  unfold warpCheckSorted
  rw [hhead, hany]
  simp [h9]
  omega

/-- The length-≤-9 bound on the distinct ids, derived from the ids all
being at most 9 and the contiguity hypothesis. -/

theorem dedup_length_le9 {ids : List Nat}
    (hle : ∀ d ∈ ids, d ≤ 9)
    (hcontig : List.insertionSort (fun a b => a ≤ b) ids.dedup =
      List.range' 1 ids.dedup.length) :
    ids.dedup.length ≤ 9 := by
  by_contra hgt
  push_neg at hgt
  have h10 : (10 : Nat) ∈ List.range' 1 ids.dedup.length := by
    rw [List.mem_range']
    exact ⟨9, by omega, by omega⟩
  rw [← hcontig] at h10
  have h10d : (10 : Nat) ∈ ids.dedup :=
    (List.perm_insertionSort (fun a b => a ≤ b) ids.dedup).mem_iff.mp h10
  have := hle 10 (List.mem_dedup.mp h10d)
  omega

/-- If every collected digit occurs exactly twice and the distinct digits
are exactly 1..k, the warp validation succeeds. -/

theorem warpCheck_ok_of {ids : List Nat}
    (hcnt : ∀ d ∈ ids, ids.count d = 2)
    (hle : ∀ d ∈ ids, d ≤ 9)
    (hcontig : List.insertionSort (fun a b => a ≤ b) ids.dedup =
      List.range' 1 ids.dedup.length) :
    warpCheck (canonEntries ids) = .ok () := by
  by_cases hnil : ids = []
  · subst hnil; rfl
  · have hdne : ids.dedup ≠ [] := by rwa [ne_eq, List.dedup_eq_nil]
    unfold warpCheck canonEntries
    have hee : ((ids.dedup.map fun d => (d, ids.count d)).isEmpty) = false := by
      cases hd : ids.dedup with
      | nil => exact absurd hd hdne
      | cons a l => rfl
    have hany : ((ids.dedup.map fun d => (d, ids.count d)).any fun e => e.2 ≠ 2) = false := by
      rw [List.any_eq_false]
      rintro e he
      rw [List.mem_map] at he
      obtain ⟨d, hd, rfl⟩ := he
      rw [hcnt d (List.mem_dedup.mp hd)]
      simp
    have hfst : (((ids.dedup.map fun d => (d, ids.count d)).map Prod.fst)) = ids.dedup := by
      rw [List.map_map]
      exact List.map_id ids.dedup
    have hk1 : 1 ≤ ids.dedup.length := by
      cases hd : ids.dedup with
      | nil => exact absurd hd hdne
      | cons a l => simp
    rw [hee, hany]
    simp only [Bool.false_eq_true, if_false]
    rw [hfst, hcontig, warpCheckSorted_range' hk1 (dedup_length_le9 hle hcontig)]

theorem warpIds_le9 {rows : Grid} {w h : Nat} {tl pac : Coord} :
    ∀ d ∈ warpIds rows w h tl pac, d ≤ 9 := by
  intro d hd
  unfold warpIds at hd
  rw [List.mem_filterMap] at hd
  obtain ⟨p, _, hp⟩ := hd
  by_cases hc : consumed1 tl (some pac) p.1 p.2
  · rw [if_pos hc] at hp; cases hp
  · rw [if_neg hc] at hp
    by_cases hdig : (cell rows p.1 p.2).isDigit
    · rw [if_pos hdig] at hp
      cases hp
      have := isDigit_toNat hdig
      omega
    · rw [if_neg hdig] at hp; cases hp

/-! ### Remaining plumbing -/

theorem parse_error_encode {f : List (Nat × Nat) → List (Nat × Nat)} {rows : Grid}
    {w h : Nat} {tl pac : Coord} {e : PacError}
    (h1 : gridCheck rows = .ok (w, h))
    (h2 : ghostStage rows w h = .ok tl)
    (h3 : pacStage rows w h tl = .ok pac)
    (h4 : warpStage rows w h tl pac f = .ok ())
    (h5 : strayStage rows w h tl pac = .ok ())
    (h6 : encodeStage rows w h = .error e) :
    tryFromGridWith f rows = .error e := by
  unfold tryFromGridWith
  simp only [h1, h2, h3, h4, h5, h6]

/-- A consumed cell (after the pac stage) holds a ghost or pac marker. -/

theorem consumed1_char {rows : Grid} {w h : Nat} {tl pac : Coord} {x y : Nat}
    (hts : ghostStage rows w h = .ok tl)
    (hp : pacStage rows w h tl = .ok pac)
    (hc : consumed1 tl (some pac) x y = true) :
    cell rows x y = '@' ∨ cell rows x y = '$' := by
  unfold consumed1 at hc
  rw [Bool.or_eq_true] at hc
  rcases hc with hb | hpc
  · exact Or.inl (ghostBlock_cell hts hb)
  · simp only [Bool.and_eq_true, Bool.or_eq_true, decide_eq_true_eq] at hpc
    obtain ⟨hy, hx⟩ := hpc
    obtain ⟨c1, c2, _, _⟩ := pacStage_ok_pair hp
    rcases hx with hx | hx
    · exact Or.inr (by rw [hx, hy]; exact c1)
    · exact Or.inr (by rw [hx, hy]; exact c2)

theorem digitChar_ne {d : Nat} (h1 : 1 ≤ d) (h9 : d ≤ 9) :
    digitChar d ≠ '@' ∧ digitChar d ≠ '$' := by
  interval_cases d <;> exact ⟨by decide, by decide⟩

theorem count_filterMap {α β : Type} [DecidableEq β] (f : α → Option β) (b : β) :
    ∀ l : List α, (l.filterMap f).count b = (l.filter fun a => f a = some b).length := by
  intro l
  induction l with
  | nil => rfl
  | cons a l ih =>
    rw [List.filterMap_cons, List.filter_cons]
    cases hfa : f a with
    | none =>
      rw [if_neg (by simp [hfa])]
      exact ih
    | some b' =>
      by_cases hbb : b' = b
      · subst hbb
        rw [if_pos (by simp [hfa]), List.length_cons, List.count_cons]
        simp [ih]
      · rw [if_neg (by simp [hfa, hbb]), List.count_cons]
        simp [hbb, ih]

example : try_from_file fixtureWarp2 = .ok fixtureWarp2Game := by decide

example : try_from_file gridDigitsOnly = .error .NoGhostSpawn := by decide

example : try_from_file gridWideBlock = .error .MultipleGhostSpawns := by decide

example : try_from_file gridStrayAt = .error .InvalidGhostSpawn := by decide

example : try_from_file gridTwoDefects = .error .InvalidPacSpawn := by decide

example : try_from_file gridEdgeBlock = .ok gridEdgeBlockGame := by decide

example : try_from_file gridInvalidChar = .error .InvalidCharacters := by decide

/-! ### Claim C1 -/

/-- C1 counterexample: the fixture passes every structural check and parses
successfully, yet its ghost-marker cell `(1, 2)` receives cell code `0`, not
the code `1` the claim specifies for the ghost marker. -/

theorem C1_counterexample :
    try_from_file fixtureGrid = .ok fixtureGame ∧
    cell fixtureGrid 1 2 = '@' ∧
    ¬ boardVal fixtureGame.board 1 2 = 1 := by
  refine ⟨by decide, by decide, by decide⟩

/-- C1 (amended): on every grid whose parse succeeds the board holds, at each
in-range cell, exactly the specified code of its character — space 0, wall 1,
dot 2, pellet 3, pac marker 0, ghost marker 0 (not 1), digit `d` ↦ `-d` — and
if every stage up to encoding passes while some in-range cell holds a
character outside this table, the parse fails with `InvalidCharacters`. -/

theorem C1_theorem :
    (∀ (rows : Grid) (g : Game) (w h : Nat),
      gridCheck rows = .ok (w, h) → try_from_file rows = .ok g →
      ∀ x y, x < w → y < h → boardVal g.board x y = specCode (cell rows x y)) ∧
    (∀ (rows : Grid) (w h : Nat) (tl pac : Coord),
      gridCheck rows = .ok (w, h) →
      ghostStage rows w h = .ok tl →
      pacStage rows w h tl = .ok pac →
      warpStage rows w h tl pac id = .ok () →
      strayStage rows w h tl pac = .ok () →
      (∃ x y, x < w ∧ y < h ∧ validChar (cell rows x y) = false) →
      try_from_file rows = .error .InvalidCharacters) := by
  constructor
  · intro rows g w h hg hok x y hx hy
    exact (parse_boardVal hg hok x y hx hy).2
  · intro rows w h tl pac hg hts hp hwarp hstray hbad
    obtain ⟨x, y, hx, hy, hv⟩ := hbad
    have hce : encodeCell (cell rows x y) = .error .InvalidCharacters :=
      encodeCell_error_iff.mpr ⟨hv, rfl⟩
    have hmem : (x, y) ∈ rowMajor w h := mem_rowMajor.mpr ⟨hx, hy⟩
    obtain ⟨e', he'⟩ := @mapE_isError_of_mem _ _ (fun p => encodeCell (cell rows p.1 p.2))
      (rowMajor w h) (x, y) .InvalidCharacters hmem hce
    have he'' : e' = .InvalidCharacters := by
      obtain ⟨a, _, ha⟩ := mapE_error_mem he'
      exact (encodeCell_error_iff.mp ha).2
    subst he''
    exact parse_error_encode hg hts hp hwarp hstray he'

/-- C1 witness: the amended mapping evaluated at the fixture's ghost-marker
cell, and the `InvalidCharacters` failure on the fixture with an `'x'`. -/

theorem C1_witness :
    boardVal fixtureGame.board 1 2 = specCode (cell fixtureGrid 1 2) ∧
    try_from_file gridInvalidChar = .error .InvalidCharacters :=
  ⟨C1_theorem.1 fixtureGrid fixtureGame 12 9 (by decide) (by decide) 1 2 (by decide)
      (by decide),
   C1_theorem.2 gridInvalidChar 12 9 (1, 2) (7, 7) (by decide) (by decide) (by decide)
      (by decide) (by decide) ⟨1, 1, by decide, by decide, by decide⟩⟩

/-! ### Claim C2 -/

/-- C2 counterexample: on the fixture (GhostSpawn block top-left `(1, 2)`,
pac pair left cell `(7, 7)`) the parse succeeds with all four ghosts at one
and the same integral position and Pac-Man at integral `(7, 7)` — refuting
the four distinct fractional ghost offsets and the `(px + 0.5, py)` Pac-Man
start of the claim. -/

theorem C2_counterexample :
    try_from_file fixtureGrid = .ok fixtureGame ∧
    fixtureGame.blinky_loc = fixtureGame.pinky_loc ∧
    fixtureGame.pinky_loc = fixtureGame.inky_loc ∧
    fixtureGame.inky_loc = fixtureGame.clyde_loc ∧
    fixtureGame.pacman_loc = (7, 7) := by
  refine ⟨by decide, by decide, by decide, by decide, by decide⟩

/-- C2 (amended): the derived entity positions are a pure function of the
block top-left `(gx, gy)` and the pac pair's left cell `(px, py)`: Pac-Man
starts at exactly `(px, py)` and all four ghosts start at the block center
`(gx + 3, gy + 2)`; all coordinates are integers. -/

theorem C2_theorem {rows : Grid} {w h : Nat} {tl pac : Coord} {g : Game}
    (hg : gridCheck rows = .ok (w, h))
    (hts : ghostStage rows w h = .ok tl)
    (hp : pacStage rows w h tl = .ok pac)
    (hok : try_from_file rows = .ok g) :
    g.pacman_loc = pac ∧
    g.blinky_loc = (tl.1 + 3, tl.2 + 2) ∧ g.pinky_loc = (tl.1 + 3, tl.2 + 2) ∧
    g.inky_loc = (tl.1 + 3, tl.2 + 2) ∧ g.clyde_loc = (tl.1 + 3, tl.2 + 2) := by
  obtain ⟨w', h', tl', pac', flat, board, hg', hts', hp', _, _, _, _, hgame⟩ :=
    parse_ok_inv hok
  cases Except.ok.inj (hg.symm.trans hg')
  cases Except.ok.inj (hts.symm.trans hts')
  cases Except.ok.inj (hp.symm.trans hp')
  subst hgame
  exact ⟨rfl, rfl, rfl, rfl, rfl⟩

/-- C2 witness: the amended placement evaluated on the fixture. -/

theorem C2_witness :
    fixtureGame.pacman_loc = (7, 7) ∧
    fixtureGame.blinky_loc = (4, 4) ∧ fixtureGame.pinky_loc = (4, 4) ∧
    fixtureGame.inky_loc = (4, 4) ∧ fixtureGame.clyde_loc = (4, 4) :=
  @C2_theorem fixtureGrid 12 9 (1, 2) (7, 7) fixtureGame
    (by decide) (by decide) (by decide) (by decide)

/-! ### Claim C3 -/

/-- C3 counterexample: the fixture contains exactly one matching 8x5 window,
at top-left `(1, 2)`, and parses successfully — but the recorded ghost spawn
is `(4, 4)`, not the block's top-left. -/

theorem C3_counterexample :
    try_from_file fixtureGrid = .ok fixtureGame ∧
    (ghostCandidates 12 9).filter (fun c => windowAllAt fixtureGrid c.1 c.2) = [(1, 2)] ∧
    ¬ fixtureGame.ghost_spawn = (1, 2) := by
  refine ⟨by decide, by decide, by decide⟩

/-- C3 (amended): for every grid with exactly one matching 8x5 window, at
top-left `b`, a successful parse records `ghost_spawn` as the block center
`b + (3, 2)`, not the top-left. -/

theorem C3_theorem {rows : Grid} {w h : Nat} {b : Coord} {g : Game}
    (hg : gridCheck rows = .ok (w, h))
    (hone : (ghostCandidates w h).filter (fun c => windowAllAt rows c.1 c.2) = [b])
    (hok : try_from_file rows = .ok g) :
    g.ghost_spawn = (b.1 + 3, b.2 + 2) := by
  have hts : ghostStage rows w h = .ok b := ghostStage_ok_iff.mpr hone
  obtain ⟨w', h', tl', pac', flat, board, hg', hts', _, _, _, _, _, hgame⟩ :=
    parse_ok_inv hok
  cases Except.ok.inj (hg.symm.trans hg')
  cases Except.ok.inj (hts.symm.trans hts')
  subst hgame
  rfl

/-- C3 witness: the amended statement evaluated on the fixture. -/

theorem C3_witness : fixtureGame.ghost_spawn = (4, 4) :=
  @C3_theorem fixtureGrid 12 9 (1, 2) fixtureGame (by decide) (by decide) (by decide)

/-! ### Claim C5 -/

/-- C5: the pac-spawn detector behaves exactly as described — scanning
unclaimed horizontally adjacent pairs in row-major order, the first matching
pair is recorded and claimed; a second match (against the updated overlay)
fails with `MultiplePacSpawns`; after the scan a leftover unclaimed pac
marker fails with `InvalidPacSpawn`; otherwise, with no recorded pair, the
stage fails with `NoPacSpawn`; on success the left coordinate of the first
matching pair is returned.  Stated as equality with the first-match
specification `pacSpec`. -/

theorem C5_theorem (rows : Grid) (w h : Nat) (tl : Coord) :
    pacStage rows w h tl = pacSpec rows w h tl :=
  pacStage_eq_spec rows w h tl

/-! ### Claim C7 -/

/-- C7 counterexample: a grid with both a stray ghost marker (at `(10, 1)`,
outside the accepted block) and a stray pac marker (at `(2, 1)`) reports the
pac-spawn error, not the ghost-spawn error the claim requires. -/

theorem C7_counterexample :
    cell gridTwoDefects 10 1 = '@' ∧
    inGhostBlock (1, 2) 10 1 = false ∧
    cell gridTwoDefects 2 1 = '$' ∧
    try_from_file gridTwoDefects = .error .InvalidPacSpawn := by
  refine ⟨by decide, by decide, by decide, by decide⟩

/-- C7 (amended): after the grid checks and the 8x5 window scan, a pac-stage
error is reported before the warp stage runs, and a warp-stage error is
reported before the stray-ghost-marker check runs: the stray-`'@'` check
(`InvalidGhostSpawn`) comes after the pac and warp checks, so a grid with a
stray ghost marker and a pac or warp defect reports the pac or warp error. -/

theorem C7_theorem {rows : Grid} {w h : Nat} {tl : Coord}
    (hg : gridCheck rows = .ok (w, h))
    (hts : ghostStage rows w h = .ok tl) :
    (∀ e, pacStage rows w h tl = .error e → try_from_file rows = .error e) ∧
    (∀ pac e, pacStage rows w h tl = .ok pac →
      warpStage rows w h tl pac id = .error e → try_from_file rows = .error e) :=
  ⟨fun _ hp => parse_error_pac hg hts hp,
   fun _ _ hp hw => parse_error_warp hg hts hp hw⟩

/-- C7 witness: on the two-defect grid the pac-stage error `InvalidPacSpawn`
is what the whole parse reports. -/

theorem C7_witness : try_from_file gridTwoDefects = .error .InvalidPacSpawn :=
  (@C7_theorem gridTwoDefects 12 9 (1, 2) (by decide) (by decide)).1
    .InvalidPacSpawn (by decide)

/-! ### Claim C9 -/

/-- C9 counterexample: a level whose ghost block touches the top edge (so
the two rows above its center do not exist) and whose two cells directly
below the center are non-blank parses successfully — it does not fail with
any error, let alone `InvalidGhostSpawnPeripheral` (a variant the parser's
error enum does not even contain). -/

theorem C9_counterexample :
    try_from_file gridEdgeBlock = .ok gridEdgeBlockGame := by
  decide

/-- C9 (amended): the parser enforces no peripheral-clearance rule: the
accepted block of `gridEdgeBlock` has top-left `(1, 0)` (touching the top
edge), the two cells below its horizontal center hold `'$'`, and the parse
succeeds regardless.  `InvalidGhostSpawnPeripheral` exists only in the
binary crate's unused duplicate error enum and is never produced. -/

theorem C9_theorem :
    ghostStage gridEdgeBlock 10 6 = .ok (1, 0) ∧
    cell gridEdgeBlock 4 5 = '$' ∧ cell gridEdgeBlock 5 5 = '$' ∧
    parseOk gridEdgeBlock = true := by
  refine ⟨by decide, by decide, by decide, by decide⟩

/-! ### Claim C10 -/

/-- C10: parsing is deterministic despite the warp hash map: for any
iteration order of the `warp_counts` entries (any permutation of the entry
list) the parse returns the same result as the canonical order — the same
error on failure and the same `Game` on success. -/

theorem C10_theorem (f : List (Nat × Nat) → List (Nat × Nat))
    (hf : ∀ l, (f l).Perm l) (rows : Grid) :
    tryFromGridWith f rows = try_from_file rows := by
  unfold try_from_file tryFromGridWith
  cases hg : gridCheck rows with
  | error e => rfl
  | ok wh =>
    obtain ⟨w, h⟩ := wh
    dsimp only
    cases hts : ghostStage rows w h with
    | error e => rfl
    | ok tl =>
      dsimp only
      cases hp : pacStage rows w h tl with
      | error e => rfl
      | ok pac =>
        dsimp only
        rw [warpStage_perm rows w h tl pac hf]

/-- C10 witness: the reversed entry order on the two-warp fixture. -/

theorem C10_witness :
    tryFromGridWith List.reverse fixtureWarp2 = try_from_file fixtureWarp2 :=
  C10_theorem List.reverse (fun l => l.reverse_perm) fixtureWarp2

/-! ### Claim C6 -/

/-- C6 counterexample: a 9-wide, 5-tall solid block of ghost markers — the
claim's own example of a mis-shaped block that should yield
`InvalidGhostSpawn` — contains two (overlapping) matching 8x5 windows, and
the parse fails with `MultipleGhostSpawns` instead; this also refutes the
claim that `MultipleGhostSpawns` is reported only for a second
non-overlapping match. -/

theorem C6_counterexample :
    windowAllAt gridWideBlock 1 1 = true ∧
    windowAllAt gridWideBlock 2 1 = true ∧
    try_from_file gridWideBlock = .error .MultipleGhostSpawns := by
  refine ⟨by decide, by decide, by decide⟩

/-- C6 (amended): the window scan is a function of the list of matching 8x5
windows — a second match, overlapping or not, gives `MultipleGhostSpawns`
(so a 9-wide block gives `MultipleGhostSpawns`, and a cluster with no match
at all gives `NoGhostSpawn`); and a ghost marker not claimed by the single
accepted block fails with `InvalidGhostSpawn` once the pac and warp stages
have passed. -/

theorem C6_theorem :
    (∀ (rows : Grid) (w h : Nat), ghostStage rows w h = ghostSpec rows w h) ∧
    (∀ (rows : Grid) (w h : Nat) (tl pac : Coord),
      gridCheck rows = .ok (w, h) →
      ghostStage rows w h = .ok tl →
      pacStage rows w h tl = .ok pac →
      warpStage rows w h tl pac id = .ok () →
      (∃ x y, x < w ∧ y < h ∧ cell rows x y = '@' ∧
        consumed2 rows tl pac x y = false) →
      try_from_file rows = .error .InvalidGhostSpawn) := by
  constructor
  · exact ghostStage_eq_spec
  · intro rows w h tl pac hg hts hp hwarp hstray
    obtain ⟨x, y, hx, hy, hat, hnc⟩ := hstray
    have hs : strayStage rows w h tl pac = .error .InvalidGhostSpawn := by
      unfold strayStage
      rw [if_pos]
      rw [List.any_eq_true]
      refine ⟨(x, y), mem_rowMajor.mpr ⟨hx, hy⟩, ?_⟩
      rw [Bool.and_eq_true, Bool.not_eq_true']
      exact ⟨decide_eq_true hat, hnc⟩
    exact parse_error_stray hg hts hp hwarp hs

/-- C6 witness: a stray ghost marker at `(10, 1)` of an otherwise valid
fixture is reported as `InvalidGhostSpawn`. -/

theorem C6_witness : try_from_file gridStrayAt = .error .InvalidGhostSpawn :=
  C6_theorem.2 gridStrayAt 12 9 (1, 2) (7, 7) (by decide) (by decide) (by decide)
    (by decide) ⟨10, 1, by decide, by decide, by decide, by decide⟩

/-! ### Claim C4 -/

/-- C4 counterexample: a grid whose digits are exactly a well-formed warp
pair (digit 1 twice, the used-digit set contiguous from 1) on which the
parse nevertheless fails — the claim's "for every grid … the parse succeeds"
ignores the other pipeline stages (here there is no ghost block). -/

theorem C4_counterexample :
    gridDigits gridDigitsOnly = [1, 1] ∧
    try_from_file gridDigitsOnly = .error .NoGhostSpawn := by
  refine ⟨by decide, by decide⟩

/-- C4 (amended): if the grid also passes the ghost, pac, stray and
character checks, and every digit collected by the warp sweep appears
exactly twice with the distinct digits contiguous from 1, then the parse
succeeds; the returned `Game` carries no warp map — instead each warp
endpoint is recorded on the board: for every used digit `d`, the board cells
holding `-d` are exactly the two grid cells holding the digit `d`, in
row-major (first-seen, second-seen) order. -/

theorem C4_theorem {rows : Grid} {w h : Nat} {tl pac : Coord}
    (hg : gridCheck rows = .ok (w, h))
    (hts : ghostStage rows w h = .ok tl)
    (hp : pacStage rows w h tl = .ok pac)
    (hstray : strayStage rows w h tl pac = .ok ())
    (hval : ∀ p ∈ rowMajor w h, validChar (cell rows p.1 p.2) = true)
    (hcnt : ∀ d ∈ warpIds rows w h tl pac, (warpIds rows w h tl pac).count d = 2)
    (hcontig : List.insertionSort (fun a b => a ≤ b) (warpIds rows w h tl pac).dedup =
      List.range' 1 (warpIds rows w h tl pac).dedup.length) :
    ∃ g, try_from_file rows = .ok g ∧
      ∀ d ∈ (warpIds rows w h tl pac).dedup,
        boardCells g.board w h (-(d : Int)) = digitCells rows w h d ∧
        (digitCells rows w h d).length = 2 := by
  have hwarp : warpStage rows w h tl pac id = .ok () := by
    unfold warpStage
    exact warpCheck_ok_of hcnt warpIds_le9 hcontig
  have hforall : ∀ p ∈ rowMajor w h, ∃ v, encodeCell (cell rows p.1 p.2) = .ok v :=
    fun p hpm => ⟨specCode (cell rows p.1 p.2), encodeCell_ok_iff.mpr ⟨hval p hpm, rfl⟩⟩
  obtain ⟨flat, he⟩ := @mapE_ok_of_forall _ _ (fun p => encodeCell (cell rows p.1 p.2))
    (rowMajor w h) hforall
  have hlen : flat.length = h * w := by rw [mapE_ok_length he, rowMajor_length]
  have hok : try_from_file rows = .ok (mkGame tl pac
      ((List.range h).map fun y => (flat.drop (y * w)).take w)) :=
    parse_ok_build hg hts hp hwarp hstray he (toBoard_ok hlen)
  refine ⟨_, hok, ?_⟩
  intro d hd
  have hdids : d ∈ warpIds rows w h tl pac := List.mem_dedup.mp hd
  have hd9 : d ≤ 9 := warpIds_le9 d hdids
  have hd1 : 1 ≤ d := by
    have hmem : d ∈ List.insertionSort (fun a b => a ≤ b)
        (warpIds rows w h tl pac).dedup :=
      (List.perm_insertionSort _ _).mem_iff.mpr hd
    rw [hcontig, List.mem_range'] at hmem
    obtain ⟨i, _, hi⟩ := hmem
    omega
  have hbv := parse_boardVal hg hok
  constructor
  · unfold boardCells digitCells
    apply List.filter_congr
    intro p hpm
    obtain ⟨hx, hy⟩ := mem_rowMajor.mp hpm
    have hbp := (hbv p.1 p.2 hx hy).2
    have hvc := (hbv p.1 p.2 hx hy).1
    rw [decide_eq_decide]
    constructor
    · intro hbd
      rw [hbp] at hbd
      exact specCode_neg hvc hd1 hbd
    · intro hcd
      rw [hbp, hcd, specCode_digitChar hd1 hd9]
  · have hcount := hcnt d hdids
    unfold warpIds at hcount
    rw [count_filterMap] at hcount
    have hsame : digitCells rows w h d = (rowMajor w h).filter (fun p =>
        (if consumed1 tl (some pac) p.1 p.2 then none
         else if (cell rows p.1 p.2).isDigit then some ((cell rows p.1 p.2).toNat - 48)
         else none) = some d) := by
      unfold digitCells
      apply List.filter_congr
      intro p hpm
      rw [decide_eq_decide]
      constructor
      · intro hcd
        have hdig : (cell rows p.1 p.2).isDigit = true := by
          rw [hcd]; exact isDigit_digitChar hd9
        have hnc : consumed1 tl (some pac) p.1 p.2 = false := by
          cases hcc : consumed1 tl (some pac) p.1 p.2 with
          | false => rfl
          | true =>
            rcases consumed1_char hts hp hcc with hq | hq
            · rw [hcd] at hq; exact absurd hq (digitChar_ne hd1 hd9).1
            · rw [hcd] at hq; exact absurd hq (digitChar_ne hd1 hd9).2
        rw [if_neg (by rw [hnc]; simp), if_pos hdig, hcd, toNat_digitChar hd9]
        have h48 : 48 + d - 48 = d := by omega
        rw [h48]
      · intro hfp
        by_cases hc1 : consumed1 tl (some pac) p.1 p.2
        · rw [if_pos hc1] at hfp; cases hfp
        · rw [if_neg hc1] at hfp
          by_cases hdig : (cell rows p.1 p.2).isDigit
          · rw [if_pos hdig] at hfp
            exact char_eq_digitChar hdig (Option.some.inj hfp)
          · rw [if_neg hdig] at hfp; cases hfp
    rw [hsame]
    exact hcount

/-- C4 witness: the two-warp fixture — digits 1 and 2, each in two cells —
parses successfully with `-1` and `-2` recorded at exactly those cells. -/

theorem C4_witness :
    ∃ g, try_from_file fixtureWarp2 = .ok g ∧
      ∀ d ∈ (warpIds fixtureWarp2 12 9 (1, 2) (7, 7)).dedup,
        boardCells g.board 12 9 (-(d : Int)) = digitCells fixtureWarp2 12 9 d ∧
        (digitCells fixtureWarp2 12 9 d).length = 2 :=
  @C4_theorem fixtureWarp2 12 9 (1, 2) (7, 7) (by decide) (by decide) (by decide)
    (by decide) (by decide) (by decide) (by decide)
